import Mathlib

/-!
Verification of the point-in-time external-dependency resolver and tag
planner of the svn_utils repository (src/svn.py and
src/svn-time-machine.py), by a shallow embedding of the Python code.

The svn server, the filesystem and the urllib quote/unquote helpers are
out of repository scope; they are modelled as oracle parameters.  The
Python code itself — the data model, the resolver functor, the
declaration parser and the tag planner — is translated function by
function; each definition's doc comment names the source lines it
embeds.

String primitives (startswith, endswith, slicing, strip, split, join) are
modelled on the character list of the string, which matches Python's
character-level semantics.
-/

namespace SvnUtils

/-- Python str.startswith. -/
def strStartsWith (s pre : String) : Bool :=
  pre.data.isPrefixOf s.data

/-- Python str.endswith. -/
def strEndsWith (s post : String) : Bool :=
  post.data.isSuffixOf s.data

/-- Python s[n:]. -/
def strDrop (s : String) (n : Nat) : String :=
  String.mk (s.data.drop n)

/-- Python s[:-n] (for n ≤ len). -/
def strDropRight (s : String) (n : Nat) : String :=
  String.mk (s.data.take (s.data.length - n))

/-- Python whitespace test used by str.strip. -/
def isSpaceChar (ch : Char) : Bool :=
  ch == ' ' || ch == '\t' || ch == '\n' || ch == '\r'

/-- Python str.strip(). -/
def strTrim (s : String) : String :=
  String.mk (((s.data.dropWhile isSpaceChar).reverse.dropWhile isSpaceChar).reverse)

/-- Splitting a character list on a separator character. -/
def splitCharAux (c : Char) : List Char → List Char → List (List Char)
  | cur, [] => [cur.reverse]
  | cur, x :: xs =>
    if x == c then cur.reverse :: splitCharAux c [] xs
    else splitCharAux c (x :: cur) xs

/-- Python str.split(c) for a one-character separator. -/
def splitOnChar (s : String) (c : Char) : List String :=
  (splitCharAux c [] s.data).map String.mk

/-- Python sep.join(list). -/
def joinWith (sep : String) : List String → String
  | [] => ""
  | [x] => x
  | x :: xs => x ++ sep ++ joinWith sep xs

/-- svn.py, class CommitInfo (lines 37-42): commit data returned by the log
queries.  Revisions are non-negative integers. -/
structure CommitInfo where
  revision : Nat
  date : String
  author : String
  message : String
deriving Repr, DecidableEq

/-- svn.py, class ExternalInfo (lines 47-54): one external declaration.
The Python field holds None, the parsed digit string, or the integer
revision from a log query; the digit string and the integer render
identically everywhere they are used, so the revision is held as an
optional number. -/
structure ExternalInfo where
  name : String
  url : String
  revision : Option Nat
deriving Repr, DecidableEq

/-- svn.py, isUrl (lines 44-45). -/
def isUrl (path : String) : Bool :=
  strStartsWith path "http://"

/-- svn.py, repositoryJoin (lines 73-80). -/
def repositoryJoin (repository url : String) : String :=
  let url := if strStartsWith url "^/" then strDrop url 2
             else if strStartsWith url "/" then strDrop url 1
             else url
  let repository := if strEndsWith repository "/" then repository
                    else repository ++ "/"
  if isUrl url then url else repository ++ url

/-- Model of os.path.join on two POSIX components (library call used by
svn.py pathJoin and by the planner). -/
def posixJoin (base ext : String) : String :=
  if strStartsWith ext "/" then ext
  else if base = "" || strEndsWith base "/" then base ++ ext
  else base ++ "/" ++ ext

/-- svn.py, pathJoin (lines 83-87). -/
def pathJoin (base ext : String) : String :=
  if isUrl base then repositoryJoin base ext else posixJoin base ext

/-- svn.py, class ExternalFullInfo (lines 57-69): an external declaration
together with its owning directory and repository. -/
structure ExternalFullInfo extends ExternalInfo where
  baseDir : String
  repository : String
deriving Repr, DecidableEq

/-- svn.py, ExternalFullInfo.fullPath (lines 61-66). -/
def ExternalFullInfo.fullPath (e : ExternalFullInfo) : String :=
  if isUrl e.baseDir then e.baseDir ++ "/" ++ e.name
  else posixJoin e.baseDir e.name

/-- svn.py, ExternalFullInfo.fullUrl (lines 67-69). -/
def ExternalFullInfo.fullUrl (e : ExternalFullInfo) : String :=
  repositoryJoin e.repository e.url

/-- svn.py, class DirWithExternals (lines 96-127).  The private dict keyed
by entry name is modelled as a list in insertion order; the dict guarantees
the names in the list are distinct. -/
structure DirWithExternals where
  basePath : String
  repository : String
  data : List ExternalInfo
deriving Repr, DecidableEq

/-- Python dict assignment d[name] = e: an existing key keeps its position
and gets the new value, a new key is appended. -/
def addEntry (l : List ExternalInfo) (e : ExternalInfo) : List ExternalInfo :=
  if l.any (fun x => x.name == e.name) then
    l.map (fun x => if x.name == e.name then e else x)
  else l ++ [e]

/-- svn.py, DirWithExternals.add (lines 116-118). -/
def DirWithExternals.add (d : DirWithExternals) (name url : String)
    (revision : Option Nat) : DirWithExternals :=
  { d with data := addEntry d.data ⟨name, url, revision⟩ }

/-- svn.py, DirWithExternals.listFull (lines 112-115). -/
def DirWithExternals.listFull (d : DirWithExternals) : List ExternalFullInfo :=
  d.data.map (fun e => { toExternalInfo := e, baseDir := d.basePath, repository := d.repository })

/-- svn.py, DirWithExternals.map (lines 119-127), instrumented: the
conversion function also reports the list of effects (here: Commit Lookup
calls) it produced, which the plain Python functor performs as side
effects.  Entries mapped to none are dropped, exactly as in the source. -/
def DirWithExternals.mapLog {τ : Type} (d : DirWithExternals)
    (f : ExternalFullInfo → Option ExternalInfo × List τ) :
    DirWithExternals × List τ :=
  d.listFull.foldl
    (fun acc e =>
      match acc, f e with
      | (accd, acclog), (v, log) =>
        (match v with
         | some val => accd.add val.name val.url val.revision
         | none => accd,
         acclog ++ log))
    (⟨d.basePath, d.repository, []⟩, [])

/-- svn.py, mapExternalBefore (lines 245-255): the Point-in-Time Resolver
functor.  lookup abstracts getCommitBefore (lines 161-167); the list of
(url, reference) pairs records the Commit Lookup calls the functor issues,
in order. -/
def mapExternalBefore (lookup : String → String → CommitInfo)
    (rootRepository internalRevision externalDate : String)
    (entry : ExternalFullInfo) : ExternalInfo × List (String × String) :=
  match entry.revision with
  | some _ => (entry.toExternalInfo, [])
  | none =>
    if strStartsWith entry.fullUrl (rootRepository ++ "/") then
      (⟨entry.name, entry.url, some (lookup entry.fullUrl internalRevision).revision⟩,
        [(entry.fullUrl, internalRevision)])
    else
      let ref := "\x7b" ++ externalDate ++ "\x7d"
      (⟨entry.name, entry.url, some (lookup entry.fullUrl ref).revision⟩,
        [(entry.fullUrl, ref)])

/-- Resolution of one directory of declarations: DirWithExternals.map
applied to the mapExternalBefore functor, as every caller in
svn-time-machine.py does (lines 29, 76, 150).  The functor never returns
None, so every mapped entry is kept. -/
def resolveDir (lookup : String → String → CommitInfo)
    (rootRepository internalRevision externalDate : String)
    (d : DirWithExternals) : DirWithExternals × List (String × String) :=
  d.mapLog (fun e =>
    match mapExternalBefore lookup rootRepository internalRevision externalDate e with
    | (v, calls) => (some v, calls))

/-- Resolution of a whole forest (one resolveDir per directory group, as
the per-directory loops in svn-time-machine.py perform), with all Commit
Lookup calls collected. -/
def resolveForest (lookup : String → String → CommitInfo)
    (rootRepository internalRevision externalDate : String)
    (dirs : List DirWithExternals) : List DirWithExternals × List (String × String) :=
  dirs.foldr
    (fun d acc =>
      let r := resolveDir lookup rootRepository internalRevision externalDate d
      (r.1 :: acc.1, r.2 ++ acc.2))
    ([], [])

/- ### Helper lemmas about the resolver -/

theorem mapExternalBefore_pinned (lookup : String → String → CommitInfo)
    (root ir ed : String) (entry : ExternalFullInfo) (r : Nat)
    (h : entry.revision = some r) :
    mapExternalBefore lookup root ir ed entry = (entry.toExternalInfo, []) := by
  unfold mapExternalBefore
  rw [h]

theorem externalInfo_eta (e : ExternalInfo) :
    ExternalInfo.mk e.name e.url e.revision = e := rfl

theorem addEntry_notMem (l : List ExternalInfo) (e : ExternalInfo)
    (h : ∀ x ∈ l, x.name ≠ e.name) : addEntry l e = l ++ [e] := by
  unfold addEntry
  rw [if_neg]
  simp only [List.any_eq_true, not_exists, not_and]
  intro x hx
  simpa using h x hx

theorem dir_add_append (bp rep : String) (acc : List ExternalInfo) (e : ExternalInfo)
    (h : ∀ x ∈ acc, x.name ≠ e.name) :
    DirWithExternals.add ⟨bp, rep, acc⟩ e.name e.url e.revision
      = ⟨bp, rep, acc ++ [e]⟩ := by
  unfold DirWithExternals.add
  simp only [externalInfo_eta]
  rw [addEntry_notMem _ _ h]

theorem nodup_head_notin {acc rest : List ExternalInfo} {e : ExternalInfo}
    (hnd : ((acc ++ e :: rest).map ExternalInfo.name).Nodup) :
    ∀ x ∈ acc, x.name ≠ e.name := by
  intro x hx
  rw [List.map_append, List.nodup_append] at hnd
  have hmem := hnd.2.2 (List.mem_map_of_mem ExternalInfo.name hx)
  simp only [List.map_cons, List.mem_cons] at hmem
  exact fun hEq => hmem (Or.inl hEq)

theorem listFull_toExternalInfo (d : DirWithExternals) :
    d.listFull.map (fun e => e.toExternalInfo) = d.data := by
  unfold DirWithExternals.listFull
  rw [List.map_map]
  exact List.map_id d.data

/-- A mapLog whose conversion keeps every entry unchanged and produces no
effects rebuilds the same directory (names are distinct, as they are for
every directory built by the Python dict). -/
theorem mapLog_entries_id {τ : Type} (d : DirWithExternals)
    (f : ExternalFullInfo → Option ExternalInfo × List τ)
    (hf : ∀ e ∈ d.listFull, f e = (some e.toExternalInfo, []))
    (hnd : (d.data.map ExternalInfo.name).Nodup) :
    d.mapLog f = (d, []) := by
  unfold DirWithExternals.mapLog
  suffices h : ∀ (l : List ExternalFullInfo) (acc : List ExternalInfo) (accLog : List τ),
      (∀ e ∈ l, f e = (some e.toExternalInfo, [])) →
      ((acc ++ l.map (fun e => e.toExternalInfo)).map ExternalInfo.name).Nodup →
      List.foldl
        (fun (a : DirWithExternals × List τ) e =>
          let r := f e
          (match r.1 with
           | some val => a.1.add val.name val.url val.revision
           | none => a.1,
           a.2 ++ r.2))
        (⟨d.basePath, d.repository, acc⟩, accLog) l
        = (⟨d.basePath, d.repository, acc ++ l.map (fun e => e.toExternalInfo)⟩, accLog) by
    have hl := listFull_toExternalInfo d
    have hrun := h d.listFull [] [] hf (by rw [hl]; simpa using hnd)
    rw [hrun, hl]
    simp
  intro l
  induction l with
  | nil => intro acc accLog _ _; simp
  | cons e rest ih =>
    intro acc accLog hfl hnd2
    rw [List.foldl_cons]
    have hstep := hfl e (List.mem_cons_self e rest)
    rw [hstep]
    have hacc : ∀ x ∈ acc, x.name ≠ e.toExternalInfo.name := by
      exact @nodup_head_notin acc (rest.map (fun e => e.toExternalInfo))
        e.toExternalInfo (by simpa using hnd2)
    simp only [dir_add_append d.basePath d.repository acc e.toExternalInfo hacc,
      List.append_nil]
    have := ih (acc ++ [e.toExternalInfo]) accLog
      (fun x hx => hfl x (List.mem_cons_of_mem e hx))
      (by simpa using hnd2)
    simpa using this

theorem resolveDir_pinned (lookup : String → String → CommitInfo)
    (root ir ed : String) (d : DirWithExternals)
    (hp : ∀ e ∈ d.data, e.revision ≠ none)
    (hnd : (d.data.map ExternalInfo.name).Nodup) :
    resolveDir lookup root ir ed d = (d, []) := by
  unfold resolveDir
  apply mapLog_entries_id
  · intro e he
    unfold DirWithExternals.listFull at he
    obtain ⟨x, hx, hxe⟩ := List.mem_map.mp he
    have hrev : e.revision ≠ none := by
      rw [← hxe]
      exact hp x hx
    obtain ⟨r, hr⟩ := Option.ne_none_iff_exists'.mp hrev
    rw [mapExternalBefore_pinned lookup root ir ed e r hr]
  · exact hnd

/- ### Claims about the resolver and url handling -/

/-- C1: for every floating external (no pinned revision) handed to the
Point-in-Time Resolver functor mapExternalBefore, if its absolute target
(fullUrl) lies under the declared root repository the functor issues
exactly one Commit Lookup call with internalRevision (and never the
external instant) and pins the returned revision; if the absolute target
lies outside the root repository it issues exactly one Commit Lookup call
with externalDate as a brace-delimited timestamp bound (never a raw
revision number) and pins the returned revision. -/
theorem resolver_floating_query_policy
    (lookup : String → String → CommitInfo) (root ir ed : String)
    (entry : ExternalFullInfo) (h : entry.revision = none) :
    (strStartsWith entry.fullUrl (root ++ "/") = true →
      mapExternalBefore lookup root ir ed entry =
        (⟨entry.name, entry.url, some (lookup entry.fullUrl ir).revision⟩,
         [(entry.fullUrl, ir)])) ∧
    (strStartsWith entry.fullUrl (root ++ "/") = false →
      mapExternalBefore lookup root ir ed entry =
        (⟨entry.name, entry.url, some (lookup entry.fullUrl ("\x7b" ++ ed ++ "\x7d")).revision⟩,
         [(entry.fullUrl, "\x7b" ++ ed ++ "\x7d")])) := by
  constructor <;> intro hin <;> unfold mapExternalBefore <;> rw [h] <;> simp [hin]

/-- Fixed demo Commit Lookup oracle used by the concrete witnesses. -/
def demoLookup : String → String → CommitInfo :=
  fun _ r => ⟨if r = "12" then 11 else 6, "2024-07-01T00:00:00.000000Z", "alice", "m"⟩

/-- A concrete floating declaration inside the root repository. -/
def wEntryIn : ExternalFullInfo :=
  { name := "x", url := "^/libs/x", revision := none,
    baseDir := "/w/c", repository := "http://repo/a" }

theorem resolver_floating_query_policy_witness :
    mapExternalBefore demoLookup "http://repo/a" "12" "2024-07-11" wEntryIn
      = (⟨"x", "^/libs/x", some 11⟩, [("http://repo/a/libs/x", "12")]) := by
  have h := (resolver_floating_query_policy demoLookup "http://repo/a" "12" "2024-07-11"
    wEntryIn rfl).1 (by decide)
  rw [h]
  decide

/-- C2: an external with a non-null pinned revision is returned by the
resolver functor with the same name, target and revision, and with no
Commit Lookup call recorded for it. -/
theorem resolver_pinned_passthrough
    (lookup : String → String → CommitInfo) (root ir ed : String)
    (entry : ExternalFullInfo) (r : Nat) (h : entry.revision = some r) :
    mapExternalBefore lookup root ir ed entry
      = (⟨entry.name, entry.url, entry.revision⟩, []) := by
  rw [mapExternalBefore_pinned lookup root ir ed entry r h]

/-- A concrete declaration carrying an explicit pin. -/
def wEntryPinned : ExternalFullInfo :=
  { name := "y", url := "^/libs/y", revision := some 42,
    baseDir := "/w/c", repository := "http://repo/a" }

theorem resolver_pinned_passthrough_witness :
    mapExternalBefore demoLookup "http://repo/a" "12" "2024-07-11" wEntryPinned
      = (⟨"y", "^/libs/y", some 42⟩, []) := by
  have h := resolver_pinned_passthrough demoLookup "http://repo/a" "12" "2024-07-11"
    wEntryPinned 42 rfl
  rw [h]
  rfl

/-- C7: applying the resolver to a forest in which every declaration
already carries a pinned revision returns an equal forest and issues zero
Commit Lookup calls.  The name-distinctness hypothesis holds for every
directory the Python code builds, whose entries live in a dict keyed by
name. -/
theorem resolver_idempotent
    (lookup : String → String → CommitInfo) (root ir ed : String)
    (dirs : List DirWithExternals)
    (hp : ∀ d ∈ dirs, ∀ e ∈ d.data, e.revision ≠ none)
    (hnd : ∀ d ∈ dirs, (d.data.map ExternalInfo.name).Nodup) :
    resolveForest lookup root ir ed dirs = (dirs, []) := by
  induction dirs with
  | nil => rfl
  | cons d rest ih =>
    have hd := resolveDir_pinned lookup root ir ed d
      (hp d (List.mem_cons_self d rest)) (hnd d (List.mem_cons_self d rest))
    have hrest : resolveForest lookup root ir ed rest = (rest, []) :=
      ih (fun x hx => hp x (List.mem_cons_of_mem d hx))
         (fun x hx => hnd x (List.mem_cons_of_mem d hx))
    unfold resolveForest at hrest ⊢
    rw [List.foldr_cons, hrest, hd]
    rfl

/-- A concrete fully-pinned forest. -/
def wPinnedForest : List DirWithExternals :=
  [⟨"/w/c", "http://repo/a", [⟨"y", "^/libs/y", some 42⟩, ⟨"z", "http://other/z", some 3⟩]⟩,
   ⟨"/w/c/d", "http://repo/a", [⟨"k", "^/k", some 1⟩]⟩]

theorem resolver_idempotent_witness :
    resolveForest demoLookup "http://repo/a" "12" "2024-07-11" wPinnedForest
      = (wPinnedForest, []) := by
  exact resolver_idempotent demoLookup "http://repo/a" "12" "2024-07-11" wPinnedForest
    (by decide) (by decide)

/-- C10: a target is classified as an absolute url exactly when it starts
with the literal prefix http:// (an https:// target is not); any
non-url target with no repository-relative marker is resolved by appending
it to the owning repository root, while an http:// target is used as-is. -/
theorem url_classification :
    (∀ s, isUrl s = strStartsWith s "http://") ∧
    isUrl "https://host/proj" = false ∧
    (∀ repository url, strStartsWith url "^/" = false → strStartsWith url "/" = false →
      isUrl url = false →
      repositoryJoin repository url =
        (if strEndsWith repository "/" then repository else repository ++ "/") ++ url) ∧
    (∀ repository url, strStartsWith url "^/" = false → strStartsWith url "/" = false →
      isUrl url = true → repositoryJoin repository url = url) := by
  refine ⟨fun s => rfl, by decide, ?_, ?_⟩ <;>
  · intro repository url h1 h2 h3
    unfold repositoryJoin
    simp [h1, h2, h3]

theorem url_classification_witness :
    repositoryJoin "http://repo/a" "https://other.example/lib"
      = "http://repo/a/" ++ "https://other.example/lib" := by
  have h := url_classification.2.2.1 "http://repo/a" "https://other.example/lib"
    (by decide) (by decide) (by decide)
  rw [h]
  decide

/- ### The tag planner (svn-time-machine.py) -/

/-- Python-level abnormal terminations observable in this embedding. -/
inductive PyErr where
  | nameErrorSys
  | svnException (msg : String)
deriving Repr, DecidableEq

/-- How a run ends abnormally: an explicit sys.exit, an uncaught exception
(CPython then terminates with exit status 1), or exhaustion of the fuel
this embedding uses for the unbounded loops of the source. -/
inductive Halt where
  | exited (code : Nat)
  | raised (e : PyErr)
  | fuelOut
deriving Repr, DecidableEq

/-- svn.py, class ExternalTree (lines 129-156): directory groups keyed by
owning directory, in insertion order. -/
structure ExternalTree where
  localPath : String
  dirs : List DirWithExternals
deriving Repr, DecidableEq

/-- One call to the svn adapter, as recorded in the run trace. -/
inductive SvnOp where
  | infoOp (path : String)
  | logAt (url reference : String)
  | logBefore (url reference : String)
  | checkoutOp (path url : String) (revision : Option String)
  | exportOp (path url : String) (revision : Option String)
  | addOp (path : String)
  | propgetOp (pathOrUrl : String) (revision : Option Nat)
  | propsetOp (path : String) (entries : List ExternalInfo)
  | copyOp (src dst message : String)
deriving Repr, DecidableEq

/-- Whether an adapter call is a server-side copy. -/
def SvnOp.isCopy : SvnOp → Bool
  | copyOp _ _ _ => true
  | _ => false

/-- The svn server and the urllib helpers, which are outside the
repository: an oracle answering the adapter queries the planner makes.
externalsOf abstracts the result of svn.getExternals on a path or url at
an optional revision. -/
structure SvnWorld where
  repoRoot : String → String
  commitAt : String → String → CommitInfo
  commitBefore : String → String → CommitInfo
  externalsOf : String → Option Nat → ExternalTree
  quote : String → String
  unquote : String → String

/-- The values tagTimeMachine computes once and the nested planner
functions close over (svn-time-machine.py lines 84-121). -/
structure TagEnv where
  w : SvnWorld
  repository : String
  internalRevision : String
  externalDate : String
  destination : String
  message : String
  enableImports : Bool
  temporaryDir : String

/-- The mutable planner state: the adapter-call trace, the pending work
list (nextSteps), the deferred copies and the scratch-directory counter. -/
structure PState where
  trace : List SvnOp
  nextSteps : List (String × Option String × String)
  copies : List (String × String × String)
  curTemp : Nat
deriving Repr, DecidableEq

/-- svn-time-machine.py, isInternalUrl (lines 120-121). -/
def isInternalUrl (env : TagEnv) (url : String) : Bool :=
  strStartsWith url (env.repository ++ "/")

/-- Model of os.path.split: split after the last slash, then strip
trailing slashes from the head unless it is all slashes. -/
def posixSplit (p : String) : String × String :=
  let cs := p.data
  let tail := (cs.reverse.takeWhile (fun c => c ≠ '/')).reverse
  let headRaw := cs.take (cs.length - tail.length)
  let head := if headRaw.all (fun c => c = '/') then headRaw
              else (headRaw.reverse.dropWhile (fun c => c = '/')).reverse
  (String.mk head, String.mk tail)

/-- The relative-path walk of filterOutComplex (svn-time-machine.py lines
130-134): repeatedly os.path.split the path, collecting the stripped
names, until the scratch root is reached.  The Python while loop does not
terminate when the root is never reached; fuel makes that observable. -/
def deltaWalk (fuel : Nat) (base dest : String) : Option (List String) :=
  match fuel with
  | 0 => none
  | fuel + 1 =>
    if base = dest then some []
    else
      let s := posixSplit base
      match deltaWalk fuel s.1 dest with
      | some l => some (l ++ [s.2])
      | none => none

/-- The destination-url construction of filterOutComplex
(svn-time-machine.py lines 135-139): append each component, quoted, after
a slash. -/
def buildDestUrl (quote : String → String) (destination : String)
    (comps : List String) : String :=
  comps.foldl
    (fun destUrl n =>
      (if strEndsWith destUrl "/" then destUrl else destUrl ++ "/") ++ quote n)
    destination

/-- svn.py, getRelativePath (lines 89-95). -/
def getRelativePath (base dest : String) : Except PyErr String :=
  if isUrl base then
    if strStartsWith dest (base ++ "/") then
      .ok (strDrop dest (base.data.length + 1))
    else
      .error (.svnException (dest ++ " is not a descendant of " ++ base))
  else .error (.svnException "Non url are not handled for now")

/-- svn-time-machine.py, getLocalPath (lines 159-161): the local path the
imported external content lives at, built by joining the url-decoded
relative components onto the external working path. -/
def getLocalPath (w : SvnWorld) (entry : ExternalFullInfo) (url : String) :
    Except PyErr String :=
  match getRelativePath entry.fullUrl url with
  | .error e => .error e
  | .ok rel =>
    .ok ((splitOnChar rel '/').foldl
      (fun acc c => posixJoin acc (w.unquote c)) entry.fullPath)

/-- Python rendering of the revision field in the import message. -/
def pyShowOptNat : Option Nat → String
  | some n => toString n
  | none => "None"

/-- Outcome of the per-entry functor: the kept declaration (none = the
entry is dropped from the rewritten properties) with the updated message
list and state, or an abnormal termination carrying the state reached. -/
inductive FilterOut where
  | ok (kept : Option ExternalInfo) (msgs : List String) (st : PState)
  | halted (st : PState) (h : Halt)
deriving Repr, DecidableEq

/-- Outcome of a directory-level planning step. -/
inductive DirsOut where
  | ok (msgs : List String) (st : PState)
  | halted (st : PState) (h : Halt)
deriving Repr, DecidableEq

/-- Outcome of the stateful map over a directory's entries. -/
inductive MapOut where
  | ok (acc : DirWithExternals) (msgs : List String) (st : PState)
  | halted (st : PState) (h : Halt)
deriving Repr, DecidableEq

/-- Outcome of a work-list triple or of the whole planning loop. -/
inductive RunOut where
  | ok (st : PState)
  | halted (st : PState) (h : Halt)
deriving Repr, DecidableEq

/-- The planner state reached by a functor step. -/
def FilterOut.state : FilterOut → PState
  | .ok _ _ st => st
  | .halted st _ => st

/-- The planner state reached by a directory-level step. -/
def DirsOut.state : DirsOut → PState
  | .ok _ st => st
  | .halted st _ => st

/-- The planner state reached by the stateful map. -/
def MapOut.state : MapOut → PState
  | .ok _ _ st => st
  | .halted st _ => st

/-- The planner state reached by the loop. -/
def RunOut.state : RunOut → PState
  | .ok st => st
  | .halted st _ => st

mutual

/-- svn-time-machine.py, filterOutComplex (lines 126-147): processing of
one entry by the functor.  A simple external is kept (rewritten to its
full url when it lives outside the source repository); a complex internal
external pushes a work-list triple and is dropped; a complex external of
another repository is handed to handleExternalCheckout and dropped. -/
def filterOutComplexStep (env : TagEnv) (fuel : Nat) (dest : String)
    (msgs : List String) (e : ExternalFullInfo) (st : PState) : FilterOut :=
  match fuel with
  | 0 => .halted st .fuelOut
  | fuel + 1 =>
    let tree := env.w.externalsOf e.fullUrl e.revision
    let st := { st with trace := st.trace ++ [SvnOp.propgetOp e.fullUrl e.revision] }
    if tree.dirs.isEmpty then
      .ok (some ⟨e.name, if isInternalUrl env e.fullUrl then e.url else e.fullUrl,
        e.revision⟩) msgs st
    else
      match deltaWalk fuel e.fullPath dest with
      | none => .halted st .fuelOut
      | some comps =>
        let destUrl := buildDestUrl env.w.quote env.destination comps
        if isInternalUrl env e.fullUrl then
          .ok none msgs
            { st with nextSteps := st.nextSteps ++ [(e.fullUrl, some e.url, destUrl)] }
        else
          match handleExternalCheckout env fuel e dest msgs st with
          | .ok msgs2 st2 => .ok none msgs2 st2
          | .halted st2 h => .halted st2 h

/-- svn-time-machine.py, handleExternalCheckout (lines 154-172): a complex
external of another repository is fatal unless imports are enabled (the
source calls sys.exit(0) there); with imports enabled its content is
exported at its pinned revision and add-tracked, and its own externals are
flattened recursively. -/
def handleExternalCheckout (env : TagEnv) (fuel : Nat)
    (entry : ExternalFullInfo) (dest : String) (msgs : List String)
    (st : PState) : DirsOut :=
  match fuel with
  | 0 => .halted st .fuelOut
  | fuel + 1 =>
    if env.enableImports = false then
      .halted st (.exited 0)
    else
      let msgs := msgs ++
        ["- Import of " ++ entry.fullUrl ++ "@" ++ pyShowOptNat entry.revision]
      let st := { st with trace := (st.trace ++
        [SvnOp.exportOp entry.fullPath entry.fullUrl (entry.revision.map toString),
         SvnOp.addOp entry.fullPath]) }
      let tree := env.w.externalsOf entry.fullUrl entry.revision
      let st := { st with trace := st.trace ++ [SvnOp.propgetOp entry.fullUrl entry.revision] }
      handleExtDirsLoop env fuel entry dest tree.dirs msgs st

/-- The for loop of handleExternalCheckout (svn-time-machine.py lines
168-172): rebase each directory group of the imported external to its
local path and flatten it. -/
def handleExtDirsLoop (env : TagEnv) (fuel : Nat) (entry : ExternalFullInfo)
    (dest : String) (dirs : List DirWithExternals) (msgs : List String)
    (st : PState) : DirsOut :=
  match fuel with
  | 0 => .halted st .fuelOut
  | fuel + 1 =>
    match dirs with
    | [] => .ok msgs st
    | d :: rest =>
      match getLocalPath env.w entry d.basePath with
      | .error e => .halted st (.raised e)
      | .ok lp =>
        match handleDirWithExternals env fuel
          (d.data.foldl
            (fun (nd : DirWithExternals) e2 => nd.add e2.name e2.url e2.revision)
            ⟨lp, d.repository, []⟩) dest msgs st with
        | .halted st2 h => .halted st2 h
        | .ok msgs2 st2 => handleExtDirsLoop env fuel entry dest rest msgs2 st2

/-- svn-time-machine.py, handleDirWithExternals (lines 149-152): resolve
one directory group (map with the mapExternalBefore functor, recording its
Commit Lookup calls), filter the complex externals out of it, then write
the resulting declarations back. -/
def handleDirWithExternals (env : TagEnv) (fuel : Nat)
    (d : DirWithExternals) (dest : String) (msgs : List String)
    (st : PState) : DirsOut :=
  match fuel with
  | 0 => .halted st .fuelOut
  | fuel + 1 =>
    match resolveDir env.w.commitBefore env.repository env.internalRevision
      env.externalDate d with
    | (nv, calls) =>
      let st := { st with trace := (st.trace ++
        calls.map (fun c => SvnOp.logBefore c.1 c.2)) }
      match mapFilterLoop env fuel nv.listFull
        ⟨nv.basePath, nv.repository, []⟩ dest msgs st with
      | .halted st2 h => .halted st2 h
      | .ok nv2 msgs2 st2 =>
        .ok msgs2 { st2 with trace := (st2.trace ++
          [SvnOp.propsetOp nv2.basePath nv2.data]) }

/-- DirWithExternals.map applied to the stateful filterOutComplex functor
(the second map of svn-time-machine.py line 150-151): fold over the
entries, keeping the non-dropped results. -/
def mapFilterLoop (env : TagEnv) (fuel : Nat)
    (entries : List ExternalFullInfo) (acc : DirWithExternals)
    (dest : String) (msgs : List String) (st : PState) : MapOut :=
  match fuel with
  | 0 => .halted st .fuelOut
  | fuel + 1 =>
    match entries with
    | [] => .ok acc msgs st
    | e :: rest =>
      match filterOutComplexStep env fuel dest msgs e st with
      | .halted st2 h => .halted st2 h
      | .ok v msgs2 st2 =>
        mapFilterLoop env fuel rest
          (match v with
           | some val => acc.add val.name val.url val.revision
           | none => acc) dest msgs2 st2

end

/-- The for loop over the directory groups of a freshly checked-out triple
(svn-time-machine.py lines 194-195). -/
def handleDirsLoop (env : TagEnv) (fuel : Nat) (dirs : List DirWithExternals)
    (dest : String) (msgs : List String) (st : PState) : DirsOut :=
  match dirs with
  | [] => .ok msgs st
  | d :: rest =>
    match handleDirWithExternals env fuel d dest msgs st with
    | .halted st2 h => .halted st2 h
    | .ok msgs2 st2 => handleDirsLoop env fuel rest dest msgs2 st2

/-- The tail of handleInternalCheckout (svn-time-machine.py lines
196-199): on success, record the scratch directory, its destination and
the composed message as a pending copy; on failure, propagate. -/
def recordCopy (dest destUrl : String) (r : DirsOut) : RunOut :=
  match r with
  | .halted st2 h => .halted st2 h
  | .ok msgs2 st2 =>
    .ok { st2 with copies := (st2.copies ++ [(dest, destUrl, joinWith "\n" msgs2)]) }

/-- svn-time-machine.py, handleInternalCheckout (lines 173-199): allocate
a scratch directory, look up and check out the triple's source at the
run's instant, resolve and rewrite its declarations, and record the
pending copy operation. -/
def handleInternalCheckout (env : TagEnv) (fuel : Nat) (url : String)
    (showedUrl : Option String) (destUrl : String) (st : PState) : RunOut :=
  let msgs := [match showedUrl with
    | none => env.message
    | some _ => env.message ++ "\n- Tag of external " ++ destUrl]
  let dest := posixJoin env.temporaryDir (toString st.curTemp)
  let st := { st with curTemp := st.curTemp + 1 }
  let ref := if isInternalUrl env url then env.internalRevision
             else "\x7b" ++ env.externalDate ++ "\x7d"
  let st := { st with trace := (st.trace ++
    [SvnOp.logBefore url ref, SvnOp.checkoutOp dest url (some ref)]) }
  let tree := env.w.externalsOf dest none
  let st := { st with trace := st.trace ++ [SvnOp.propgetOp dest none] }
  recordCopy dest destUrl (handleDirsLoop env fuel tree.dirs dest msgs st)

/-- Python list.pop(): remove and return the last element. -/
def popLast {α : Type} : List α → Option (α × List α)
  | [] => none
  | [a] => some (a, [])
  | a :: b :: rest =>
    match popLast (b :: rest) with
    | some (x, r) => some (x, a :: r)
    | none => none

/-- The planning loop of tagTimeMachine (svn-time-machine.py lines
202-204): pop the last work-list triple and plan it, until the list is
empty. -/
def tagLoop (env : TagEnv) (fuel : Nat) (st : PState) : RunOut :=
  match fuel with
  | 0 => .halted st .fuelOut
  | fuel + 1 =>
    match popLast st.nextSteps with
    | none => .ok st
    | some ((url, showedUrl, destUrl), rest) =>
      match handleInternalCheckout env fuel url showedUrl destUrl
        { st with nextSteps := rest } with
      | .halted st2 h => .halted st2 h
      | .ok st2 => tagLoop env fuel st2

/-- Derivation of internalRevision and externalDate from the caller's
instant (svn-time-machine.py lines 93-106; checkoutTimeMachine lines 50-63
contain the same logic). -/
def deriveInstants (useRootRevisionAsMax : Bool) (maxRevision : String)
    (commitData rootCommitData : CommitInfo) : String × String :=
  if useRootRevisionAsMax then
    (toString rootCommitData.revision, rootCommitData.date)
  else if strStartsWith maxRevision "\x7b" then
    (toString commitData.revision, strDropRight (strDrop maxRevision 1) 1)
  else
    (toString commitData.revision, commitData.date)

/-- The copy-execution epilogue of tagTimeMachine (svn-time-machine.py
lines 205-207): when planning finished without a failure, run every
pending copy, in order; a halted run executes none. -/
def execCopies (r : RunOut) : PState × Option Halt :=
  match r with
  | .halted st h => (st, some h)
  | .ok st =>
    ({ st with trace := (st.trace ++
      st.copies.map (fun c => SvnOp.copyOp c.1 c.2.1 c.2.2)) }, none)

/-- svn-time-machine.py, tagTimeMachine (lines 84-207).  The trace lists
every adapter call in order; the temporary-directory root is a parameter
(the source derives it from the working directory); the newTemporaryDir
retry on FileExistsError is not observable through the trace, so the
scratch names come from the counter alone.  Copy operations are executed
only after the planning loop drains the work list (lines 205-207). -/
def tagTimeMachine (w : SvnWorld) (temporaryDir source destination maxRevision : String)
    (message : Option String) (useRootRevisionAsMax enableImports : Bool)
    (fuel : Nat) : PState × Option Halt :=
  let repository := w.repoRoot source
  let st : PState := { trace := [SvnOp.infoOp source], nextSteps := [], copies := [], curTemp := 0 }
  if strStartsWith destination (repository ++ "/") = false then
    (st, some (.exited 1))
  else
    let commitData := w.commitAt repository maxRevision
    let rootCommitData := w.commitBefore source maxRevision
    let st := { st with trace := (st.trace ++
      [SvnOp.logAt repository maxRevision, SvnOp.logBefore source maxRevision]) }
    let inst := deriveInstants useRootRevisionAsMax maxRevision commitData rootCommitData
    let env : TagEnv :=
      { w := w, repository := repository, internalRevision := inst.1,
        externalDate := inst.2, destination := destination,
        message := message.getD ("Tag of revision " ++ maxRevision),
        enableImports := enableImports, temporaryDir := temporaryDir }
    let st := { st with nextSteps := [(source, none, destination)] }
    execCopies (tagLoop env fuel st)

/- ### No copy is executed during planning -/

/-- No server-side copy occurs in the trace. -/
def noCopy (t : List SvnOp) : Prop := ∀ op ∈ t, op.isCopy = false

theorem noCopy_append {t L : List SvnOp} (h : noCopy t)
    (h2 : ∀ op ∈ L, op.isCopy = false) : noCopy (t ++ L) := by
  intro op hop
  rcases List.mem_append.mp hop with h3 | h3
  · exact h op h3
  · exact h2 op h3

theorem noCopy_propget {t : List SvnOp} (h : noCopy t) (u : String)
    (r : Option Nat) : noCopy (t ++ [SvnOp.propgetOp u r]) := by
  apply noCopy_append h
  intro op hop
  rw [List.mem_singleton] at hop
  subst hop
  rfl

/-- During the planning phase no function of the planner ever appends a
copy operation to the trace. -/
theorem plan_noCopy (fuel : Nat) :
    (∀ env dest msgs e st, noCopy st.trace →
      noCopy (filterOutComplexStep env fuel dest msgs e st).state.trace) ∧
    (∀ env entry dest msgs st, noCopy st.trace →
      noCopy (handleExternalCheckout env fuel entry dest msgs st).state.trace) ∧
    (∀ env entry dest dirs msgs st, noCopy st.trace →
      noCopy (handleExtDirsLoop env fuel entry dest dirs msgs st).state.trace) ∧
    (∀ env d dest msgs st, noCopy st.trace →
      noCopy (handleDirWithExternals env fuel d dest msgs st).state.trace) ∧
    (∀ env entries acc dest msgs st, noCopy st.trace →
      noCopy (mapFilterLoop env fuel entries acc dest msgs st).state.trace) := by
  induction fuel with
  | zero =>
    refine ⟨?_, ?_, ?_, ?_, ?_⟩
    · intro env dest msgs e st h
      simpa [filterOutComplexStep, FilterOut.state] using h
    · intro env entry dest msgs st h
      simpa [handleExternalCheckout, DirsOut.state] using h
    · intro env entry dest dirs msgs st h
      simpa [handleExtDirsLoop, DirsOut.state] using h
    · intro env d dest msgs st h
      simpa [handleDirWithExternals, DirsOut.state] using h
    · intro env entries acc dest msgs st h
      simpa [mapFilterLoop, MapOut.state] using h
  | succ n ih =>
    obtain ⟨ihA, ihB, ihC, ihD, ihE⟩ := ih
    have hA : ∀ env dest msgs e st, noCopy st.trace →
        noCopy (filterOutComplexStep env (n + 1) dest msgs e st).state.trace := by
      intro env dest msgs e st h
      have h1 : noCopy ({ st with trace := st.trace ++
          [SvnOp.propgetOp e.fullUrl e.revision] } : PState).trace :=
        noCopy_propget h e.fullUrl e.revision
      simp only [filterOutComplexStep]
      split
      · exact h1
      · split
        · exact h1
        · split
          · exact h1
          · have hh := ihB env e dest msgs
              { st with trace := st.trace ++ [SvnOp.propgetOp e.fullUrl e.revision] } h1
            cases hr : handleExternalCheckout env n e dest msgs
              { st with trace := st.trace ++ [SvnOp.propgetOp e.fullUrl e.revision] } with
            | ok msgs2 st2 =>
              rw [hr] at hh
              simpa [FilterOut.state, DirsOut.state] using hh
            | halted st2 hx =>
              rw [hr] at hh
              simpa [FilterOut.state, DirsOut.state] using hh
    have hB : ∀ env entry dest msgs st, noCopy st.trace →
        noCopy (handleExternalCheckout env (n + 1) entry dest msgs st).state.trace := by
      intro env entry dest msgs st h
      simp only [handleExternalCheckout]
      split
      · exact h
      · apply ihC
        show noCopy (({ st with trace := (st.trace ++
          [SvnOp.exportOp entry.fullPath entry.fullUrl (entry.revision.map toString),
           SvnOp.addOp entry.fullPath]) } : PState).trace ++
          [SvnOp.propgetOp entry.fullUrl entry.revision])
        apply noCopy_append
        · apply noCopy_append h
          intro op hop
          simp only [List.mem_cons, List.mem_singleton] at hop
          rcases hop with h2 | h2 | h2
          · subst h2; rfl
          · subst h2; rfl
          · exact absurd h2 (List.not_mem_nil op)
        · intro op hop
          rw [List.mem_singleton] at hop
          subst hop
          rfl
    have hC : ∀ env entry dest dirs msgs st, noCopy st.trace →
        noCopy (handleExtDirsLoop env (n + 1) entry dest dirs msgs st).state.trace := by
      intro env entry dest dirs msgs st h
      simp only [handleExtDirsLoop]
      split
      · exact h
      · next d rest =>
        split
        · exact h
        · next rel heq0 =>
          split
          · next st2 hh heq =>
            have hd := ihD env (List.foldl
              (fun nd e2 => nd.add e2.name e2.url e2.revision)
              ⟨rel, d.repository, []⟩ d.data) dest msgs st h
            rw [heq] at hd
            exact hd
          · next msgs2 st2 heq =>
            have hd := ihD env (List.foldl
              (fun nd e2 => nd.add e2.name e2.url e2.revision)
              ⟨rel, d.repository, []⟩ d.data) dest msgs st h
            rw [heq] at hd
            exact ihC env entry dest rest msgs2 st2 hd
    have hD : ∀ env d dest msgs st, noCopy st.trace →
        noCopy (handleDirWithExternals env (n + 1) d dest msgs st).state.trace := by
      intro env d dest msgs st h
      simp only [handleDirWithExternals]
      generalize resolveDir env.w.commitBefore env.repository env.internalRevision
        env.externalDate d = rv
      obtain ⟨nv, calls⟩ := rv
      have h1 : noCopy ({ st with trace := (st.trace ++
          calls.map (fun c => SvnOp.logBefore c.1 c.2)) } : PState).trace := by
        apply noCopy_append h
        intro op hop
        obtain ⟨c, _, hc⟩ := List.mem_map.mp hop
        rw [← hc]
        rfl
      split
      · next st2 hh heq2 =>
        have he := ihE env nv.listFull ⟨nv.basePath, nv.repository, []⟩ dest msgs _ h1
        rw [heq2] at he
        exact he
      · next nv2 msgs2 st2 heq2 =>
        have he := ihE env nv.listFull ⟨nv.basePath, nv.repository, []⟩ dest msgs _ h1
        rw [heq2] at he
        refine noCopy_append he ?_
        intro op hop
        rw [List.mem_singleton] at hop
        subst hop
        rfl
    have hE : ∀ env entries acc dest msgs st, noCopy st.trace →
        noCopy (mapFilterLoop env (n + 1) entries acc dest msgs st).state.trace := by
      intro env entries acc dest msgs st h
      simp only [mapFilterLoop]
      split
      · exact h
      · next e rest =>
        split
        · next st2 hh heq =>
          have ha := ihA env dest msgs e st h
          rw [heq] at ha
          exact ha
        · next v msgs2 st2 heq =>
          have ha := ihA env dest msgs e st h
          rw [heq] at ha
          exact ihE env rest _ dest msgs2 st2 ha
    exact ⟨hA, hB, hC, hD, hE⟩

theorem handleDirsLoop_noCopy (env : TagEnv) (fuel : Nat)
    (dirs : List DirWithExternals) (dest : String) (msgs : List String)
    (st : PState) (h : noCopy st.trace) :
    noCopy (handleDirsLoop env fuel dirs dest msgs st).state.trace := by
  induction dirs generalizing msgs st with
  | nil => simpa [handleDirsLoop, DirsOut.state] using h
  | cons d rest ih =>
    simp only [handleDirsLoop]
    split
    · next st2 hh heq =>
      have hd := (plan_noCopy fuel).2.2.2.1 env d dest msgs st h
      rw [heq] at hd
      exact hd
    · next msgs2 st2 heq =>
      have hd := (plan_noCopy fuel).2.2.2.1 env d dest msgs st h
      rw [heq] at hd
      exact ih msgs2 st2 hd

theorem recordCopy_noCopy (dest destUrl : String) (r : DirsOut)
    (h : noCopy r.state.trace) : noCopy (recordCopy dest destUrl r).state.trace := by
  cases r <;> simpa [recordCopy, DirsOut.state, RunOut.state] using h

theorem handleInternalCheckout_noCopy (env : TagEnv) (fuel : Nat)
    (url : String) (showedUrl : Option String) (destUrl : String)
    (st : PState) (h : noCopy st.trace) :
    noCopy (handleInternalCheckout env fuel url showedUrl destUrl st).state.trace := by
  simp only [handleInternalCheckout]
  apply recordCopy_noCopy
  apply handleDirsLoop_noCopy
  intro op hop
  have hop2 : op ∈ (st.trace ++
      [SvnOp.logBefore url (if isInternalUrl env url then env.internalRevision
        else "\x7b" ++ env.externalDate ++ "\x7d"),
       SvnOp.checkoutOp (posixJoin env.temporaryDir (toString st.curTemp)) url
        (some (if isInternalUrl env url then env.internalRevision
        else "\x7b" ++ env.externalDate ++ "\x7d"))]) ++
      [SvnOp.propgetOp (posixJoin env.temporaryDir (toString st.curTemp)) none] := hop
  rcases List.mem_append.mp hop2 with h1 | h1
  · rcases List.mem_append.mp h1 with h2 | h2
    · exact h op h2
    · simp only [List.mem_cons, List.mem_singleton] at h2
      rcases h2 with h3 | h3 | h3
      · subst h3; rfl
      · subst h3; rfl
      · exact absurd h3 (List.not_mem_nil op)
  · rw [List.mem_singleton] at h1
    subst h1
    rfl

theorem tagLoop_noCopy (env : TagEnv) (fuel : Nat) (st : PState)
    (h : noCopy st.trace) : noCopy (tagLoop env fuel st).state.trace := by
  induction fuel generalizing st with
  | zero => simpa [tagLoop, RunOut.state] using h
  | succ n ih =>
    simp only [tagLoop]
    split
    · exact h
    · next url showedUrl destUrl rest heq0 =>
      split
      · next st2 hh heq =>
        have hd := handleInternalCheckout_noCopy env n url showedUrl destUrl
          { st with nextSteps := rest } h
        rw [heq] at hd
        exact hd
      · next st2 heq =>
        have hd := handleInternalCheckout_noCopy env n url showedUrl destUrl
          { st with nextSteps := rest } h
        rw [heq] at hd
        exact ih st2 hd

theorem tag_finish (p : RunOut) (hp : noCopy p.state.trace) :
    ∃ plan, (execCopies p).1.trace
      = plan ++ (if (execCopies p).2.isSome then []
                 else (execCopies p).1.copies.map (fun c => SvnOp.copyOp c.1 c.2.1 c.2.2)) ∧
      noCopy plan := by
  cases p with
  | ok st1 =>
    refine ⟨st1.trace, ?_, hp⟩
    simp [execCopies]
  | halted st1 h =>
    refine ⟨st1.trace, ?_, hp⟩
    simp [execCopies]

/-- C3: in every tag run, the trace splits into a planning part that
contains no server-side copy and — only when the planning loop finished
without a failure — the recorded copies, appended at the very end; a run
that halts during planning has executed zero copies. -/
theorem tag_copies_deferred (w : SvnWorld)
    (temporaryDir source destination maxRevision : String)
    (message : Option String) (useRoot enableImports : Bool) (fuel : Nat) :
    ∃ plan,
      (tagTimeMachine w temporaryDir source destination maxRevision message
        useRoot enableImports fuel).1.trace
        = plan ++
          (if (tagTimeMachine w temporaryDir source destination maxRevision message
              useRoot enableImports fuel).2.isSome
           then []
           else (tagTimeMachine w temporaryDir source destination maxRevision message
              useRoot enableImports fuel).1.copies.map
             (fun c => SvnOp.copyOp c.1 c.2.1 c.2.2)) ∧
      noCopy plan := by
  simp only [tagTimeMachine]
  split
  · refine ⟨[SvnOp.infoOp source], by simp, ?_⟩
    intro op hop
    rw [List.mem_singleton] at hop
    subst hop
    rfl
  · apply tag_finish
    apply tagLoop_noCopy
    intro op hop
    have h1 : op = SvnOp.infoOp source ∨
        op = SvnOp.logAt (w.repoRoot source) maxRevision ∨
        op = SvnOp.logBefore source maxRevision := by
      simpa using hop
    rcases h1 with h1 | h1 | h1 <;> subst h1 <;> rfl

/- ### Destination policy (C9) -/

/-- C9: a tag destination that does not lie under the source's repository
root halts the run with exit status 1 immediately: the only adapter call
made is the repository-root query, so no checkout, no declaration read, no
resolution and zero copies happen. -/
theorem tag_destination_policy (w : SvnWorld)
    (temporaryDir source destination maxRevision : String)
    (message : Option String) (useRoot enableImports : Bool) (fuel : Nat)
    (h : strStartsWith destination (w.repoRoot source ++ "/") = false) :
    tagTimeMachine w temporaryDir source destination maxRevision message
      useRoot enableImports fuel
      = ({ trace := [SvnOp.infoOp source], nextSteps := [], copies := [],
           curTemp := 0 }, some (Halt.exited 1)) := by
  simp [tagTimeMachine, h]

/-- A world whose repository root is fixed; used by several witnesses. -/
def w9 : SvnWorld :=
  { repoRoot := fun _ => "http://repo/a",
    commitAt := fun _ _ => ⟨7, "2024-01-01T00:00:00.000000Z", "alice", "m"⟩,
    commitBefore := fun _ _ => ⟨7, "2024-01-01T00:00:00.000000Z", "alice", "m"⟩,
    externalsOf := fun p _ => ⟨p, []⟩,
    quote := fun s => s,
    unquote := fun s => s }

theorem tag_destination_policy_witness :
    tagTimeMachine w9 "temp" "http://repo/a/trunk" "http://other/tags/v1" "9"
      none true false 10
      = ({ trace := [SvnOp.infoOp "http://repo/a/trunk"], nextSteps := [],
           copies := [], curTemp := 0 }, some (Halt.exited 1)) := by
  exact tag_destination_policy w9 "temp" "http://repo/a/trunk"
    "http://other/tags/v1" "9" none true false 10 (by decide)

/- ### Complex internal externals become work-list entries (C4) -/

/-- C4: a complex external (its target declares further externals at its
pinned revision) living in the source repository is never kept as a
declaration on the parent scratch directory: the functor drops it (value
none) and pushes the work-list triple (fullUrl, displayed url, overall
destination extended with the external's relative path, component by
component, each quoted). -/
theorem complex_internal_split (env : TagEnv) (fuel : Nat) (dest : String)
    (msgs : List String) (e : ExternalFullInfo) (st : PState)
    (comps : List String)
    (hc : (env.w.externalsOf e.fullUrl e.revision).dirs.isEmpty = false)
    (hw : deltaWalk fuel e.fullPath dest = some comps)
    (hi : isInternalUrl env e.fullUrl = true) :
    filterOutComplexStep env (fuel + 1) dest msgs e st =
      FilterOut.ok none msgs
       { st with
         trace := st.trace ++ [SvnOp.propgetOp e.fullUrl e.revision],
         nextSteps := st.nextSteps ++
           [(e.fullUrl, some e.url, buildDestUrl env.w.quote env.destination comps)] } := by
  simp only [filterOutComplexStep]
  rw [hc, hw]
  simp [hi]

/-- A world in which the internal external http://repo/a/libs/x is complex
(it declares a further external at its pinned revision). -/
def w4 : SvnWorld :=
  { repoRoot := fun _ => "http://repo/a",
    commitAt := fun _ _ => ⟨7, "2024-01-01T00:00:00.000000Z", "alice", "m"⟩,
    commitBefore := fun _ _ => ⟨7, "2024-01-01T00:00:00.000000Z", "alice", "m"⟩,
    externalsOf := fun p _ =>
      if p = "http://repo/a/libs/x" then
        ⟨p, [⟨"http://repo/a/libs/x", "http://repo/a", [⟨"inner", "^/inner", some 2⟩]⟩]⟩
      else ⟨p, []⟩,
    quote := fun s => s,
    unquote := fun s => s }

def env4 : TagEnv :=
  { w := w4, repository := "http://repo/a", internalRevision := "7",
    externalDate := "2024-01-01T00:00:00.000000Z",
    destination := "http://repo/a/tags/v1", message := "m",
    enableImports := false, temporaryDir := "temp" }

def e4 : ExternalFullInfo :=
  { name := "lib", url := "^/libs/x", revision := some 7,
    baseDir := "temp/0", repository := "http://repo/a" }

theorem complex_internal_split_witness :
    filterOutComplexStep env4 3 "temp/0" ["m"]
      e4 { trace := [], nextSteps := [], copies := [], curTemp := 1 } =
      FilterOut.ok none ["m"]
       { trace := [SvnOp.propgetOp "http://repo/a/libs/x" (some 7)],
         nextSteps := [("http://repo/a/libs/x", some "^/libs/x",
           "http://repo/a/tags/v1/lib")],
         copies := [], curTemp := 1 } := by
  have h := complex_internal_split env4 2 "temp/0" ["m"] e4
    { trace := [], nextSteps := [], copies := [], curTemp := 1 } ["lib"]
    (by decide) (by decide) (by decide)
  rw [h]
  decide

/- ### Complex cross-repository externals (C5) -/

/-- A world whose root working copy declares one floating external to a
different repository (http://other/lib), which is itself complex: at its
pinned revision it declares a further, simple, pinned external. -/
def w5 : SvnWorld :=
  { repoRoot := fun _ => "http://repo/a",
    commitAt := fun _ _ => ⟨7, "2024-01-01T00:00:00.000000Z", "alice", "m"⟩,
    commitBefore := fun _ _ => ⟨7, "2024-01-01T00:00:00.000000Z", "alice", "m"⟩,
    externalsOf := fun p r =>
      if p = "temp/0" ∧ r = none then
        ⟨"temp/0", [⟨"temp/0", "http://repo/a", [⟨"lib", "http://other/lib", none⟩]⟩]⟩
      else if p = "http://other/lib" then
        ⟨p, [⟨"http://other/lib/deep", "http://other", [⟨"sub", "^/sub", some 3⟩]⟩]⟩
      else ⟨p, []⟩,
    quote := fun s => s,
    unquote := fun s => s }

/- ### Timestamp instants and same-repository lookups (C6) -/

/-- The environment the w5 tag run computes, with imports disabled. -/
def env5d : TagEnv :=
  { w := w5, repository := "http://repo/a", internalRevision := "7",
    externalDate := "2024-01-01T00:00:00.000000Z",
    destination := "http://repo/a/tags/v1",
    message := "Tag of revision 9", enableImports := false, temporaryDir := "temp" }

/-- The environment the w5 tag run computes, with imports enabled. -/
def env5e : TagEnv :=
  { env5d with enableImports := true }

/-- The planner state of the w5 run when the planning loop starts. -/
def st5A : PState :=
  { trace := [SvnOp.infoOp "http://repo/a/trunk",
      SvnOp.logAt "http://repo/a" "9", SvnOp.logBefore "http://repo/a/trunk" "9"],
    nextSteps := [("http://repo/a/trunk", none, "http://repo/a/tags/v1")],
    copies := [], curTemp := 0 }

/-- C5, evaluated at the failing input: a tag run that meets a complex
cross-repository external with imports disabled halts during planning with
zero copies executed — but through sys.exit(0), i.e. with exit status 0,
not a non-zero status; the same run with imports enabled finishes, exports
(rather than checks out) the external content, add-tracks it, executes
exactly one copy (the root tag), and writes the parent declarations
without any reference to the imported external. -/
theorem cross_repo_import_policy_eval :
    ((tagTimeMachine w5 "temp" "http://repo/a/trunk" "http://repo/a/tags/v1"
        "9" none true false 30).2 = some (Halt.exited 0) ∧
     (tagTimeMachine w5 "temp" "http://repo/a/trunk" "http://repo/a/tags/v1"
        "9" none true false 30).1.trace.countP (fun op => op.isCopy) = 0) ∧
    ((tagTimeMachine w5 "temp" "http://repo/a/trunk" "http://repo/a/tags/v1"
        "9" none true true 30).2 = none ∧
     SvnOp.exportOp "temp/0/lib" "http://other/lib" (some "7") ∈
       (tagTimeMachine w5 "temp" "http://repo/a/trunk" "http://repo/a/tags/v1"
        "9" none true true 30).1.trace ∧
     SvnOp.addOp "temp/0/lib" ∈
       (tagTimeMachine w5 "temp" "http://repo/a/trunk" "http://repo/a/tags/v1"
        "9" none true true 30).1.trace ∧
     (tagTimeMachine w5 "temp" "http://repo/a/trunk" "http://repo/a/tags/v1"
        "9" none true true 30).1.trace.countP (fun op => op.isCopy) = 1 ∧
     SvnOp.propsetOp "temp/0" [] ∈
       (tagTimeMachine w5 "temp" "http://repo/a/trunk" "http://repo/a/tags/v1"
        "9" none true true 30).1.trace) := by
  have hb1 : tagTimeMachine w5 "temp" "http://repo/a/trunk" "http://repo/a/tags/v1"
      "9" none true false 30 = execCopies (tagLoop env5d 30 st5A) := by
    simp only [tagTimeMachine]
    rw [if_neg (by decide)]
    congr 1
  have hb2 : tagTimeMachine w5 "temp" "http://repo/a/trunk" "http://repo/a/tags/v1"
      "9" none true true 30 = execCopies (tagLoop env5e 30 st5A) := by
    simp only [tagTimeMachine]
    rw [if_neg (by decide)]
    congr 1
  rw [hb1, hb2]
  decide

/- ### Timestamp instants and same-repository lookups (C6) -/

/-- A world for the timestamp-instant run: the repository's commit at the
requested timestamp is revision 5, and the root working copy declares one
floating same-repository external. -/
def w6 : SvnWorld :=
  { repoRoot := fun _ => "http://repo/a",
    commitAt := fun _ _ => ⟨5, "2024-07-10T00:00:00.000000Z", "bob", "mm"⟩,
    commitBefore := fun _ _ => ⟨4, "2024-07-09T00:00:00.000000Z", "bob", "mm"⟩,
    externalsOf := fun p r =>
      if p = "temp/0" ∧ r = none then
        ⟨"temp/0", [⟨"temp/0", "http://repo/a", [⟨"libint", "^/libint", none⟩]⟩]⟩
      else ⟨p, []⟩,
    quote := fun s => s,
    unquote := fun s => s }

/-- The environment the w6 tag run computes (useRootRevisionAsMax = false,
instant {2024-07-11}): internalRevision is the revision number 5 of the
repository commit at that timestamp. -/
def env6 : TagEnv :=
  { w := w6, repository := "http://repo/a", internalRevision := "5",
    externalDate := "2024-07-11", destination := "http://repo/a/tags/v1",
    message := "Tag of revision {2024-07-11}", enableImports := false,
    temporaryDir := "temp" }

/-- The planner state of the w6 run when the planning loop starts. -/
def st6A : PState :=
  { trace := [SvnOp.infoOp "http://repo/a/trunk",
      SvnOp.logAt "http://repo/a" "{2024-07-11}",
      SvnOp.logBefore "http://repo/a/trunk" "{2024-07-11}"],
    nextSteps := [("http://repo/a/trunk", none, "http://repo/a/tags/v1")],
    copies := [], curTemp := 0 }

/-- Counterexample to C6 as stated: in a tag run with
useRootRevisionAsMax = false and the timestamp instant {2024-07-11}, the
only Commit Lookup issued for the floating same-repository external
http://repo/a/libint uses the reference "5" — the revision number of the
repository's commit at that timestamp — and no date-bound reference
{2024-07-11} is ever used for it.  Same-repository externals are pinned by
a revision-number query, not by a date-bound query. -/
theorem timestamp_same_repo_query_counterexample :
    (tagTimeMachine w6 "temp" "http://repo/a/trunk" "http://repo/a/tags/v1"
        "{2024-07-11}" none false false 30).1.trace.filter
      (fun op => match op with
        | SvnOp.logBefore u _ => u = "http://repo/a/libint"
        | _ => false)
      = [SvnOp.logBefore "http://repo/a/libint" "5"] ∧
    SvnOp.logBefore "http://repo/a/libint" "{2024-07-11}" ∉
      (tagTimeMachine w6 "temp" "http://repo/a/trunk" "http://repo/a/tags/v1"
        "{2024-07-11}" none false false 30).1.trace := by
  have hb : tagTimeMachine w6 "temp" "http://repo/a/trunk" "http://repo/a/tags/v1"
      "{2024-07-11}" none false false 30 = execCopies (tagLoop env6 30 st6A) := by
    simp only [tagTimeMachine]
    rw [if_neg (by decide)]
    congr 1
  rw [hb]
  decide

/-- C6 amended: when useRootRevisionAsMax is false and the caller's
instant is a brace-delimited timestamp, internalRevision becomes the
revision number of the repository's commit at that timestamp and
externalDate the timestamp itself; the resolver then queries floating
same-repository externals with that revision number (a revision-bound
query) and floating cross-repository externals with the timestamp as a
brace-delimited date bound. -/
theorem timestamp_instant_query_derivation
    (maxRevision : String) (cd rcd : CommitInfo)
    (h1 : strStartsWith maxRevision "\x7b" = true) :
    deriveInstants false maxRevision cd rcd
      = (toString cd.revision, strDropRight (strDrop maxRevision 1) 1) ∧
    (∀ (lookup : String → String → CommitInfo) (root : String)
        (entry : ExternalFullInfo),
      entry.revision = none →
      strStartsWith entry.fullUrl (root ++ "/") = true →
      (mapExternalBefore lookup root (toString cd.revision)
          (strDropRight (strDrop maxRevision 1) 1) entry).2
        = [(entry.fullUrl, toString cd.revision)]) ∧
    (∀ (lookup : String → String → CommitInfo) (root : String)
        (entry : ExternalFullInfo),
      entry.revision = none →
      strStartsWith entry.fullUrl (root ++ "/") = false →
      (mapExternalBefore lookup root (toString cd.revision)
          (strDropRight (strDrop maxRevision 1) 1) entry).2
        = [(entry.fullUrl,
            "\x7b" ++ strDropRight (strDrop maxRevision 1) 1 ++ "\x7d")]) := by
  refine ⟨by simp [deriveInstants, h1], ?_, ?_⟩ <;>
  · intro lookup root entry he hin
    unfold mapExternalBefore
    rw [he]
    simp [hin]

theorem timestamp_instant_query_derivation_witness :
    deriveInstants false "{2024-07-11}" ⟨5, "d", "a", "m"⟩ ⟨4, "e", "b", "n"⟩
      = ("5", "2024-07-11") ∧
    (mapExternalBefore demoLookup "http://repo/a" "5" "2024-07-11"
      { name := "li", url := "^/li", revision := none,
        baseDir := "temp/0", repository := "http://repo/a" }).2
      = [("http://repo/a/li", "5")] := by
  have h := timestamp_instant_query_derivation "{2024-07-11}"
    ⟨5, "d", "a", "m"⟩ ⟨4, "e", "b", "n"⟩ (by decide)
  refine ⟨?_, ?_⟩
  · rw [h.1]
    decide
  · have h2 := h.2.1 demoLookup "http://repo/a"
      { name := "li", url := "^/li", revision := none,
        baseDir := "temp/0", repository := "http://repo/a" } rfl (by decide)
    rw [show ("5" : String) = toString (5 : Nat) by decide,
      show ("2024-07-11" : String)
        = strDropRight (strDrop "{2024-07-11}" 1) 1 by decide]
    rw [h2]
    decide

/- ### Reading declarations (svn.py, getExternals) — C8 -/

/-- The number denoted by a run of decimal digits. -/
def natOfDigits (ds : List Char) : Nat :=
  ds.foldl (fun n c => n * 10 + (c.toNat - Char.toNat '0')) 0

/-- The greedy prefix match of the pattern dot-star at digits-plus
applied to a declaration target (svn.py line 203): the target splits at
the last @ that is followed by a digit, and the revision is the maximal
digit run after that @. -/
def parseExplicitRev : List Char → Option (List Char × List Char)
  | [] => none
  | c :: rest =>
    match parseExplicitRev rest with
    | some (u, d) => some (c :: u, d)
    | none =>
      if c = '@' then
        match rest with
        | d :: _ =>
          if d.isDigit then some ([], rest.takeWhile (fun x => x.isDigit))
          else none
        | [] => none
      else none

/-- The name unquoting of svn.py lines 200-201. -/
def stripQuotes (s : String) : String :=
  if strStartsWith s "\"" && strEndsWith s "\"" then strDropRight (strDrop s 1) 1
  else s

/-- Component processing of os.path.normpath. -/
def normpathAux (isAbs : Bool) : List String → List String → List String
  | acc, [] => acc.reverse
  | acc, c :: rest =>
    if c = "" ∨ c = "." then normpathAux isAbs acc rest
    else if c = ".." then
      match acc with
      | [] => normpathAux isAbs (if isAbs then [] else [".."]) rest
      | a :: as =>
        if a = ".." then normpathAux isAbs (".." :: a :: as) rest
        else normpathAux isAbs as rest
    else normpathAux isAbs (c :: acc) rest

/-- Model of os.path.normpath (POSIX; the preserved double initial slash
of the library is not modelled, as no input here produces it). -/
def normpath (p : String) : String :=
  let isAbs := strStartsWith p "/"
  let body := joinWith "/" (normpathAux isAbs [] (splitOnChar p '/'))
  if isAbs then "/" ++ body
  else if body = "" then "." else body

/-- Python dict setdefault plus DirWithExternals.add (svn.py line 147):
an existing directory group keeps its position and repository. -/
def ExternalTree.insertEntry (t : ExternalTree) (baseDir baseName url repository : String)
    (commit : Option Nat) : ExternalTree :=
  if t.dirs.any (fun d => d.basePath == baseDir) then
    { t with dirs := t.dirs.map (fun d =>
        if d.basePath == baseDir then d.add baseName url commit else d) }
  else
    { t with dirs := t.dirs ++ [(DirWithExternals.mk baseDir repository []).add baseName url commit] }

/-- svn.py, ExternalTree.add (lines 137-147). -/
def ExternalTree.add (t : ExternalTree) (localPath url repository : String)
    (commit : Option Nat) : Except PyErr ExternalTree :=
  if isUrl t.localPath then
    let lp := repositoryJoin t.localPath localPath
    if strStartsWith lp (t.localPath ++ "/") = false then
      .error (.svnException ("Url " ++ lp ++ " is outside the root directory " ++ t.localPath))
    else
      let cs := lp.data
      let tail := (cs.reverse.takeWhile (fun c => c ≠ '/')).reverse
      let baseDir := String.mk (cs.take (cs.length - tail.length - 1))
      .ok (t.insertEntry baseDir (String.mk tail) url repository commit)
  else
    let lp := normpath (posixJoin t.localPath localPath)
    let s := posixSplit lp
    .ok (t.insertEntry s.1 s.2 url repository commit)

/-- One declaration line of the parsing loop of getExternals (svn.py lines
191-209).  The malformed-line branch corresponds to source lines 196-198:
the code there writes to sys.stderr, but svn.py never imports sys, so in
CPython that branch raises NameError — an uncaught exception which aborts
the process with a non-zero exit status. -/
def parseLine (tree : ExternalTree) (repository base line : String) :
    Except PyErr ExternalTree :=
  let l := strTrim line
  if l = "" then .ok tree
  else
    let cs := l.data
    let pre := cs.takeWhile (fun c => c ≠ ' ')
    if pre.length = cs.length then
      .error .nameErrorSys
    else
      let baseName := stripQuotes (String.mk (cs.drop (pre.length + 1)))
      let url0 := String.mk pre
      match parseExplicitRev url0.data with
      | some (u, digits) =>
        ExternalTree.add tree (pathJoin base baseName) (String.mk u) repository
          (some (natOfDigits digits))
      | none =>
        ExternalTree.add tree (pathJoin base baseName) url0 repository none

/-- The line loop of getExternals over one propget target block, with the
exception propagation of the source made explicit. -/
def parseLinesFold (repoRootOf : String → String) (basePath : String)
    (acc : Except PyErr ExternalTree) (lines : List String) :
    Except PyErr ExternalTree :=
  lines.foldl
    (fun acc2 l =>
      match acc2 with
      | .error e => .error e
      | .ok tr => parseLine tr (repoRootOf basePath) basePath l)
    acc

/-- svn.py, getExternals (lines 180-210): parsing of the svn propget xml
output into a declaration forest.  Input: the (target path, property
text) blocks in document order; repoRootOf abstracts getRepositoryRoot.
An error on any line aborts the whole read — no partially parsed forest is
ever returned. -/
def getExternalsParse (repoRootOf : String → String) (path : String)
    (targets : List (String × String)) : Except PyErr ExternalTree :=
  targets.foldl
    (fun acc t => parseLinesFold repoRootOf t.1 acc (splitOnChar t.2 '\n'))
    (.ok ⟨path, []⟩)

/-- A declaration line with content but no separating space. -/
def isMalformedLine (l : String) : Bool :=
  !(strTrim l == "") && (strTrim l).data.all (fun c => c ≠ ' ')

/-- CPython terminates with exit status 1 when an exception escapes
uncaught, which is how every abnormal outcome of the declaration reader
surfaces. -/
def PyErr.processExitCode : PyErr → Nat := fun _ => 1

theorem takeWhile_of_all {p : Char → Bool} :
    ∀ {l : List Char}, l.all p = true → l.takeWhile p = l := by
  intro l h
  induction l with
  | nil => rfl
  | cons c rest ih =>
    rw [List.all_cons, Bool.and_eq_true] at h
    rw [List.takeWhile_cons, if_pos h.1, ih h.2]

theorem parseLine_malformed (tree : ExternalTree) (repository base l : String)
    (h : isMalformedLine l = true) :
    parseLine tree repository base l = .error .nameErrorSys := by
  unfold isMalformedLine at h
  rw [Bool.and_eq_true] at h
  have h1 : ¬ strTrim l = "" := by
    intro hc
    rw [hc] at h
    simpa using h.1
  have h2 : (strTrim l).data.takeWhile (fun c => c ≠ ' ') = (strTrim l).data :=
    takeWhile_of_all h.2
  unfold parseLine
  rw [if_neg h1, if_pos (by rw [h2])]

theorem parseLinesFold_error (repoRootOf : String → String) (basePath : String)
    (e : PyErr) (lines : List String) :
    parseLinesFold repoRootOf basePath (.error e) lines = .error e := by
  induction lines with
  | nil => rfl
  | cons l rest ih =>
    unfold parseLinesFold at ih ⊢
    rw [List.foldl_cons]
    exact ih

theorem parseLinesFold_cons (repoRootOf : String → String) (basePath : String)
    (tr : ExternalTree) (l : String) (rest : List String) :
    parseLinesFold repoRootOf basePath (.ok tr) (l :: rest) =
    parseLinesFold repoRootOf basePath
      (parseLine tr (repoRootOf basePath) basePath l) rest := rfl

theorem parseLinesFold_malformed (repoRootOf : String → String) (basePath : String)
    (acc : Except PyErr ExternalTree) (lines : List String) (l : String)
    (hm : l ∈ lines) (hmal : isMalformedLine l = true) :
    ∃ e, parseLinesFold repoRootOf basePath acc lines = .error e := by
  induction lines generalizing acc with
  | nil => exact absurd hm (List.not_mem_nil l)
  | cons l0 rest ih =>
    cases acc with
    | error e => exact ⟨e, parseLinesFold_error repoRootOf basePath e (l0 :: rest)⟩
    | ok tr =>
      rw [parseLinesFold_cons]
      rcases List.mem_cons.mp hm with h0 | h0
      · subst h0
        rw [parseLine_malformed tr (repoRootOf basePath) basePath l hmal]
        exact ⟨.nameErrorSys, parseLinesFold_error repoRootOf basePath _ rest⟩
      · exact ih (parseLine tr (repoRootOf basePath) basePath l0) h0

theorem getExternalsParse_error (repoRootOf : String → String)
    (e : PyErr) (targets : List (String × String)) :
    targets.foldl
      (fun acc t => parseLinesFold repoRootOf t.1 acc (splitOnChar t.2 '\n'))
      (.error e) = .error e := by
  induction targets with
  | nil => rfl
  | cons t rest ih =>
    rw [List.foldl_cons, parseLinesFold_error]
    exact ih

/-- C8: a declaration line with no separating whitespace makes reading the
declarations fail as a whole: the parse returns an error (no forest, also
no partially parsed one, is produced) and the process terminates with a
non-zero status.  In svn.py the offending branch raises NameError, because
the module uses sys without importing it; the uncaught exception aborts
the run before any mutation with exit status 1. -/
theorem malformed_declaration_fatal (repoRootOf : String → String)
    (path : String) (targets : List (String × String))
    (h : ∃ t ∈ targets, ∃ l ∈ splitOnChar t.2 '\n', isMalformedLine l = true) :
    ∃ e, getExternalsParse repoRootOf path targets = .error e ∧
      PyErr.processExitCode e ≠ 0 := by
  obtain ⟨t, ht, l, hl, hmal⟩ := h
  suffices hgen : ∀ (acc : Except PyErr ExternalTree),
      ∃ e, targets.foldl
        (fun acc t => parseLinesFold repoRootOf t.1 acc (splitOnChar t.2 '\n'))
        acc = .error e by
    obtain ⟨e, he⟩ := hgen (.ok ⟨path, []⟩)
    exact ⟨e, he, by unfold PyErr.processExitCode; exact one_ne_zero⟩
  intro acc
  induction targets generalizing acc with
  | nil => exact absurd ht (List.not_mem_nil t)
  | cons t0 rest ih =>
    rw [List.foldl_cons]
    rcases List.mem_cons.mp ht with h0 | h0
    · subst h0
      obtain ⟨e, he⟩ := parseLinesFold_malformed repoRootOf t.1 acc
        (splitOnChar t.2 '\n') l hl hmal
      rw [he]
      exact ⟨e, getExternalsParse_error repoRootOf e rest⟩
    · exact ih h0 _

theorem malformed_declaration_fatal_witness :
    ∃ e, getExternalsParse (fun _ => "http://repo/a") "/w/c"
      [("/w/c", "^/a@3 liba\nbadline")] = .error e ∧
      PyErr.processExitCode e ≠ 0 := by
  apply malformed_declaration_fatal
  exact ⟨("/w/c", "^/a@3 liba\nbadline"), by decide, "badline", by decide, by decide⟩

end SvnUtils
